import Mathlib

/-!
Verification of the github_webhook_server repository (Rust, 3 source files:
src/main.rs, src/git.rs, src/github.rs).

The development shallowly embeds the event-processing core of the server:
signature validation (`Route.validate_signature`), hook routing
(`Route.hook_for_event`), HTTP request processing (`Route.process_request`,
`Route.call`), the git automation pipeline (`update_and_run_hook` and its
helpers from git.rs), structured logging (`SimpleLog`, `CommandOutput.format`)
and the single worker loop from `main`.

External collaborators are modelled as parameters or explicit data:
* HMAC-SHA256 (the `ring` crate) is an abstract function
  `hmac : String → List Nat → List Nat` (secret, raw body bytes ↦ tag bytes);
  the validator only compares its output with the decoded header bytes, so
  every theorem below holds for every choice of this function.
* JSON decoding of the push payload (`serde_json::from_slice`) is an abstract
  function `decode : List Nat → Except String GithubPushEvent`.
* Launching subprocesses is an environment `Env σ`: a state-passing
  `exec : σ → Invocation → Except String CommandOutput × σ` together with a
  clock for the timestamps produced by `chrono::Local::now()`.
* The mpsc channel contents received by the worker thread are modelled as the
  FIFO list of `Event`s, in the order the channel delivers them.

Byte strings captured from subprocesses (`std::process::Output.stdout/stderr`)
are modelled as the `String`s obtained from `String::from_utf8_lossy`; a byte
vector is empty iff its lossy decoding is the empty string, which is the only
fact `CommandOutput::format` uses about the raw bytes.
-/

namespace Webhook

/-! ### String helpers mirroring the Rust std library -/

/-- Model of `str::strip_prefix` (char-level; all prefixes used by the source
are ASCII, where Rust's byte-level comparison coincides with char-level). -/
def rustStripPfx (s p : String) : Option String :=
  if p.data.isPrefixOf s.data then some ⟨s.data.drop p.data.length⟩ else none

/-- Model of `str::lines`: split on `\n`; every segment that was terminated
by a `\n` has one trailing `\r` stripped (a `\r\n` line ending); a final
empty segment (from a trailing terminator) produces no extra line, and a final
unterminated segment is kept verbatim. -/
def rustLines (s : String) : List String :=
  let parts := s.data.splitOn '\n'
  let init := parts.dropLast.map
    fun l => (⟨if l.getLast? == some '\r' then l.dropLast else l⟩ : String)
  match parts.getLast? with
  | some [] => init
  | some l => init ++ [⟨l⟩]
  | none => init

/-- Value of one hex digit, accepting `0-9`, `a-f` and `A-F` exactly as the
`hex` crate does. -/
def hexDigitVal (c : Char) : Option Nat :=
  let n := c.toNat
  if 48 ≤ n ∧ n ≤ 57 then some (n - 48)
  else if 97 ≤ n ∧ n ≤ 102 then some (n - 87)
  else if 65 ≤ n ∧ n ≤ 70 then some (n - 55)
  else none

/-- Model of `hex::decode` on a char list: the length must be even and every
char a hex digit; consecutive digit pairs become bytes. -/
def hexDecodeList : List Char → Option (List Nat)
  | [] => some []
  | [_] => none
  | c₁ :: c₂ :: rest => do
    let hi ← hexDigitVal c₁
    let lo ← hexDigitVal c₂
    let bs ← hexDecodeList rest
    pure ((16 * hi + lo) :: bs)

/-- Model of `hex::decode` on a string. -/
def hexDecode (s : String) : Option (List Nat) :=
  hexDecodeList s.data

/-! ### Data model (src/main.rs, src/github.rs) -/

/-- `HookConfig` from src/main.rs. -/
structure HookConfig where
  name : String
  repo_name : String
  hook_route : String
  repository_directory : String
  script : String
  branch : String
  secret : Option String
  deriving Repr, DecidableEq

/-- The fields of `GithubPushEvent.repository` (src/github.rs
`GitHubRepository`) consumed by the core; the remaining fields of the external
GitHub schema are never read by routing, validation or the pipeline. -/
structure GitHubRepository where
  full_name : String
  deriving Repr, DecidableEq

/-- The fields of `GithubPushEvent` (src/github.rs) consumed by the core.
`reference` models the `ref` field (the `GitHubRef` newtype's inner string). -/
structure GithubPushEvent where
  reference : String
  repository : GitHubRepository
  deriving Repr, DecidableEq

/-- `Route` from src/main.rs: a route path plus the hooks registered on it, in
configuration order (`add_hook` pushes in order). The channel sender is not
part of the data model here; whether a `send` succeeds is the `channelOk`
parameter of `Route.process_request`. -/
structure Route where
  route : String
  hooks : List HookConfig

/-- `CommandOutput` from src/git.rs, wrapping `std::process::Output`.
`status` is the process exit code (`ExitStatus::success()` holds iff it is 0);
`stdout`/`stderr` are the captured streams as decoded by
`String::from_utf8_lossy`. -/
structure CommandOutput where
  status : Int
  stdout : String
  stderr : String
  deriving Repr, DecidableEq

/-- `GitRepositoryError` from src/git.rs. `CommandError` carries the
`std::io::Error` of a failed launch, modelled by its message. -/
inductive GitRepositoryError where
  | CommandError (e : String)
  | CommandFailed (output : CommandOutput)
  deriving Repr, DecidableEq

/-- `RouteError` from src/main.rs. Error payloads of external types
(`tide::Error`, `serde_json::Error`) are modelled by their messages. -/
inductive RouteError where
  | TideError (e : String)
  | GitRepositoryError (e : Webhook.GitRepositoryError)
  | DecodingError (e : String)
  | AuthenticationError (e : String)
  | ChannelError
  deriving Repr, DecidableEq

/-- `PushEvent` from src/main.rs: the queued job. -/
structure PushEvent where
  hook : HookConfig
  content : GithubPushEvent

/-- `Event` from src/main.rs: the channel message type (`Done` is the
shutdown sentinel). -/
inductive Event where
  | Done
  | PushEvent (e : Webhook.PushEvent)

/-- The part of a `tide::Request` the core reads: the outcome of
`req.body_bytes().await` and the values of the `X-Hub-Signature-256` header.
tide's `HeaderValues` is nonempty whenever the header is present, so a present
header is a head value plus the remaining values. -/
structure Request where
  bodyResult : Except String (List Nat)
  xHubSignature256 : Option (String × List String)

/-- `HeaderValues::last`: the last value of a present header. -/
def headerLast (hv : String × List String) : String :=
  (hv.1 :: hv.2).getLast (List.cons_ne_nil _ _)

/-! ### Signature validation (src/main.rs, `Route::validate_signature`) -/

/-- `Route::validate_signature` from src/main.rs. `hmac secret body` models
`ring::hmac::sign` with key `HMAC_SHA256(secret.as_bytes())` over the raw body
bytes; `hmac::verify` is the (constant-time) comparison of that tag with the
decoded header bytes. -/
def Route.validate_signature (hmac : String → List Nat → List Nat)
    (hook : HookConfig) (req : Request) (body : List Nat) :
    Except String Unit :=
  match hook.secret with
  | none => .ok ()
  | some secret =>
    match req.xHubSignature256 with
    | none => .error "Missing X-Hub-Signature-256 header"
    | some hv =>
      let signature := headerLast hv
      match rustStripPfx signature "sha256=" with
      | none =>
        .error ("Malformed HTTP_X_HUB_SIGNATURE_256: should start with sha256= but was \x27"
          ++ signature ++ "\x27")
      | some sig =>
        match hexDecode sig with
        | none =>
          .error ("Malformed X-Hub-Signature-256: should be all hex, but was \x27"
            ++ sig ++ "\x27")
        | some signature_bytes =>
          if signature_bytes == hmac secret body then .ok ()
          else .error "Invalid message signature"

/-! ### Routing (src/main.rs, `Route::hook_for_event`) -/

/-- The `for hook in &self.hooks` loop body of `Route::hook_for_event`. -/
def hookLoop (v : GithubPushEvent) : List HookConfig → Option HookConfig
  | [] => none
  | hook :: rest =>
    if v.repository.full_name == hook.repo_name
        && v.reference == "refs/heads/" ++ hook.branch then
      some hook
    else hookLoop v rest

/-- `Route::hook_for_event` from src/main.rs. -/
def Route.hook_for_event (self : Route) (v : GithubPushEvent) :
    Option HookConfig :=
  hookLoop v self.hooks

/-! ### Request processing (src/main.rs, `Route::process_request` and the
`Endpoint` impl) -/

/-- `Route::process_request` from src/main.rs. `decode` models
`serde_json::from_slice::<GithubPushEvent>`; `channelOk` is whether the
`channel.lock()` / `send` hand-off to the worker succeeds (both failure points
map to `ChannelError`). The second component is the list of events actually
sent on the channel by this call. -/
def Route.process_request (hmac : String → List Nat → List Nat)
    (decode : List Nat → Except String GithubPushEvent)
    (self : Route) (channelOk : Bool) (req : Request) :
    Except RouteError Unit × List Event :=
  match req.bodyResult with
  | .error e => (.error (.TideError e), [])
  | .ok body =>
    match decode body with
    | .error e => (.error (.DecodingError e), [])
    | .ok v =>
      match self.hook_for_event v with
      | none => (.error (.AuthenticationError "No valid hook found"), [])
      | some hook =>
        match Route.validate_signature hmac hook req body with
        | .error e => (.error (.AuthenticationError e), [])
        | .ok _ =>
          if channelOk then (.ok (), [.PushEvent ⟨hook, v⟩])
          else (.error .ChannelError, [])

/-- An HTTP response: status code and body. -/
structure Response where
  status : Nat
  body : String
  deriving Repr, DecidableEq

/-- The derived `Debug` rendering of `GitRepositoryError`, up to the std
`Debug` output of the inner `io::Error` / `Output` payloads. -/
def gitErrorDebug : GitRepositoryError → String
  | .CommandError e => "CommandError(" ++ e ++ ")"
  | .CommandFailed output =>
    "CommandFailed(CommandOutput: status " ++ toString output.status
      ++ ", stdout " ++ output.stdout ++ ", stderr " ++ output.stderr ++ ")"

/-- The derived `Debug` rendering of `RouteError`, used by the `Endpoint` impl
as the 500 response body (`format!("\x7b:?\x7d", e)`). -/
def routeErrorDebug : RouteError → String
  | .TideError e => "TideError(" ++ e ++ ")"
  | .GitRepositoryError e => "GitRepositoryError(" ++ gitErrorDebug e ++ ")"
  | .DecodingError e => "DecodingError(" ++ e ++ ")"
  | .AuthenticationError e => "AuthenticationError(" ++ e ++ ")"
  | .ChannelError => "ChannelError"

/-- The `Endpoint::call` impl for `Route` from src/main.rs: `Ok` becomes the
200 response with empty body (`Ok("".into())`), an error becomes a 500
response whose body is the error's `Debug` rendering. The second component is
again the list of events sent on the channel. -/
def Route.call (hmac : String → List Nat → List Nat)
    (decode : List Nat → Except String GithubPushEvent)
    (self : Route) (channelOk : Bool) (req : Request) :
    Response × List Event :=
  match self.process_request hmac decode channelOk req with
  | (.ok _, sent) => ({ status := 200, body := "" }, sent)
  | (.error e, sent) => ({ status := 500, body := routeErrorDebug e }, sent)

/-! ### Logging (src/main.rs, `SimpleLog`) -/

/-- `SimpleLog` from src/main.rs (`#[derive(Default)]` gives empty content). -/
structure SimpleLog where
  content : String
  deriving Repr, DecidableEq

/-- `SimpleLog::add_entry` from src/main.rs. `now` is the rfc3339 rendering of
`chrono::Local::now()`, computed once per call; each line of `s` is written as
`now ++ ": " ++ pfx ++ marker ++ line ++ "\n"` where the marker is `:+:` for
the first line and `:|:` for continuation lines. -/
def SimpleLog.add_entry (log : SimpleLog) (now pfx s : String) : SimpleLog :=
  ⟨(rustLines s).enum.foldl
    (fun c il =>
      c ++ now ++ ": " ++ pfx ++ (if il.1 == 0 then ":+:" else ":|:")
        ++ il.2 ++ "\n")
    log.content⟩

/-! ### Git commands (src/git.rs) -/

/-- One external command launch: working directory, program, arguments. -/
structure Invocation where
  cwd : String
  cmd : String
  args : List String
  deriving Repr, DecidableEq

/-- The execution environment: `exec` models `std::process::Command::output`
(state-passing over an abstract world `σ`, returning the launch error or the
process output), `clock` models successive calls of `chrono::Local::now()`
(the `n`-th call returns `clock n`). -/
structure Env (σ : Type) where
  exec : σ → Invocation → Except String CommandOutput × σ
  clock : Nat → String

/-- The observable state threaded through the pipeline and worker: the command
world, the clock tick counter, the ordered trace of every command launched,
the process stderr sink, and the list of hook names of jobs the worker has
processed. -/
structure PState (σ : Type) where
  world : σ
  tick : Nat
  trace : List Invocation
  errSink : String
  processedJobs : List String

/-- `GitRepository` from src/git.rs. -/
structure GitRepository where
  repo_dir : String
  git : String
  main_branch : String

/-- `GitRepository::run_command` from src/git.rs: launch `cmd args` with the
working directory set to `repo_dir`; a launch failure is `CommandError`, a
non-zero exit status is `CommandFailed`, otherwise the captured output is
returned. -/
def GitRepository.run_command (env : Env σ) (self : GitRepository)
    (cmd : String) (args : List String) (st : PState σ) :
    Except GitRepositoryError CommandOutput × PState σ :=
  let inv : Invocation := ⟨self.repo_dir, cmd, args⟩
  let r := env.exec st.world inv
  let st := { st with world := r.2, trace := st.trace ++ [inv] }
  match r.1 with
  | .error e => (.error (.CommandError e), st)
  | .ok output =>
    if output.status == 0 then (.ok output, st)
    else (.error (.CommandFailed output), st)

/-- `GitRepository::run_git_command` from src/git.rs. -/
def GitRepository.run_git_command (env : Env σ) (self : GitRepository)
    (args : List String) (st : PState σ) :
    Except GitRepositoryError CommandOutput × PState σ :=
  self.run_command env self.git args st

/-- The status line text of `std::process::ExitStatus`'s `Display` on unix for
an exited process. -/
def statusDisplay (status : Int) : String :=
  "exit status: " ++ toString status

/-- `CommandOutput::format` from src/git.rs: stage separator, status line, and
the two stream sections, each written as `[empty]` when the captured bytes are
empty and verbatim (with a final newline from `writeln!`) otherwise. -/
def CommandOutput.format (self : CommandOutput) (stage_name : String) :
    String :=
  let s := "\n--------\n" ++ stage_name ++ "\n--------\n"
  let s := s ++ "++ status = " ++ statusDisplay self.status ++ "\n"
  let s := s ++ (if self.stdout == "" then "++ stdout [empty]\n"
    else "++ stdout\n" ++ self.stdout ++ "\n")
  let s := s ++ (if self.stderr == "" then "++ stderr [empty]\n"
    else "++ stderr\n" ++ self.stderr ++ "\n")
  s

/-! ### The pipeline (src/main.rs, `handle_command_result` through
`update_and_run_hook`) -/

/-- `SimpleLog::info` with the timestamp drawn from the clock. -/
def logInfo (env : Env σ) (log : SimpleLog) (st : PState σ) (s : String) :
    SimpleLog × PState σ :=
  (log.add_entry (env.clock st.tick) "INFO" s, { st with tick := st.tick + 1 })

/-- `SimpleLog::error` with the timestamp drawn from the clock. -/
def logError (env : Env σ) (log : SimpleLog) (st : PState σ) (s : String) :
    SimpleLog × PState σ :=
  (log.add_entry (env.clock st.tick) "ERROR" s, { st with tick := st.tick + 1 })

/-- `render_command_output_to_log` from src/main.rs. -/
def render_command_output_to_log (env : Env σ) (log : SimpleLog)
    (st : PState σ) (stage : String) (output : CommandOutput) :
    SimpleLog × PState σ :=
  logInfo env log st (output.format stage)

/-- `render_command_error_to_log` from src/main.rs. -/
def render_command_error_to_log (env : Env σ) (log : SimpleLog)
    (st : PState σ) (stage : String) (err : GitRepositoryError) :
    SimpleLog × PState σ :=
  match err with
  | .CommandError e =>
    let (log, st) := logError env log st ("\n--------\n" ++ stage ++ "\n--------\n")
    logError env log st ("error = " ++ e)
  | .CommandFailed output =>
    logError env log st (output.format stage)

/-- `render_log_to_stderr` from src/main.rs: `eprint!` the whole log. -/
def render_log_to_stderr (log : SimpleLog) (st : PState σ) : PState σ :=
  { st with errSink := st.errSink ++ log.content }

/-- `handle_command_result` from src/main.rs: a success is rendered to the log
and passed through; a failure is rendered to the log, then
`Error <stage> - log follows` plus the accumulated log is flushed to stderr,
and the error is returned. -/
def handle_command_result (env : Env σ)
    (result : Except GitRepositoryError CommandOutput) (stage : String)
    (log : SimpleLog) (st : PState σ) :
    Except GitRepositoryError Unit × SimpleLog × PState σ :=
  match result with
  | .ok v =>
    let (log, st) := render_command_output_to_log env log st stage v
    (.ok (), log, st)
  | .error v =>
    let (log, st) := render_command_error_to_log env log st stage v
    let st := { st with errSink := st.errSink ++ "Error " ++ stage ++ " - log follows\n" }
    let st := render_log_to_stderr log st
    (.error v, log, st)

/-- `handle_git_command` from src/main.rs. -/
def handle_git_command (env : Env σ) (args : List String) (stage : String)
    (log : SimpleLog) (repo : GitRepository) (st : PState σ) :
    Except GitRepositoryError Unit × SimpleLog × PState σ :=
  let (r, st) := repo.run_git_command env args st
  handle_command_result env r stage log st

/-- `handle_command` from src/main.rs (runs `cmd` with no arguments). -/
def handle_command (env : Env σ) (cmd : String) (stage : String)
    (log : SimpleLog) (repo : GitRepository) (st : PState σ) :
    Except GitRepositoryError Unit × SimpleLog × PState σ :=
  let (r, st) := repo.run_command env cmd [] st
  handle_command_result env r stage log st

/-- `update_and_run_hook` from src/main.rs: fresh log, then the four stages
fetch / checkout / rebase / deploy script, each chained with `?` (which turns
a `GitRepositoryError` into `RouteError::GitRepositoryError` and aborts the
remaining stages). The log is local and dropped on return. -/
def update_and_run_hook (env : Env σ) (hook : HookConfig) (st : PState σ) :
    Except RouteError Unit × PState σ :=
  let repo : GitRepository := ⟨hook.repository_directory, "git", hook.branch⟩
  let log : SimpleLog := ⟨""⟩
  match handle_git_command env ["fetch", "origin"] "fetching latest changes" log repo st with
  | (.error e, _, st) => (.error (.GitRepositoryError e), st)
  | (.ok _, log, st) =>
    match handle_git_command env ["checkout", repo.main_branch] "checking out main branch" log repo st with
    | (.error e, _, st) => (.error (.GitRepositoryError e), st)
    | (.ok _, log, st) =>
      match handle_git_command env ["rebase", "origin/" ++ repo.main_branch] "rebasing onto latest changes" log repo st with
      | (.error e, _, st) => (.error (.GitRepositoryError e), st)
      | (.ok _, log, st) =>
        match handle_command env hook.script "running hook" log repo st with
        | (.error e, _, st) => (.error (.GitRepositoryError e), st)
        | (.ok _, _, st) => (.ok (), st)

/-! ### The worker loop and startup (src/main.rs, `main`) -/

/-- The `Error running hook <name>: <err>` line the worker writes to stderr
when a pipeline fails. -/
def errRunningHook (name : String) (e : RouteError) : String :=
  "Error running hook " ++ name ++ ": " ++ routeErrorDebug e ++ "\n"

/-- One iteration of the worker loop body for a `PushEvent`: run the pipeline;
on failure write the error line to stderr and carry on. The job's hook name is
recorded in `processedJobs`. -/
def processJob (env : Env σ) (e : PushEvent) (st : PState σ) : PState σ :=
  let r := update_and_run_hook env e.hook st
  let st :=
    match r with
    | (.ok _, st) => st
    | (.error err, st) => { st with errSink := st.errSink ++ errRunningHook e.hook.name err }
  { st with processedJobs := st.processedJobs ++ [e.hook.name] }

/-- The worker thread loop from `main` (src/main.rs): receive events in FIFO
channel order; `Done` breaks the loop; a `PushEvent` is processed by
`processJob` and the loop continues. An exhausted list is the worker still
blocked in `recv()`. -/
def worker (env : Env σ) : List Event → PState σ → PState σ
  | [], st => st
  | .Done :: _, st => st
  | .PushEvent e :: rest, st => worker env rest (processJob env e st)

/-- The missing-secret warning text from `main` (src/main.rs). -/
def missingSecretWarning (name : String) : String :=
  "WARNING: hook \x27" ++ name ++ "\x27 has no secret specified"

/-- The startup loop over `config.hooks` in `main` (src/main.rs): the warnings
printed to stderr, one per hook without a secret, in configuration order. -/
def startupWarnings : List HookConfig → List String
  | [] => []
  | hook :: rest =>
    match hook.secret with
    | none => missingSecretWarning hook.name :: startupWarnings rest
    | some _ => startupWarnings rest

/-! ### Spec-side notions used by the theorems -/

/-- The matching condition of §4.2 of the spec: exact repository full-name
equality and `ref == "refs/heads/" ++ branch`. -/
def hookMatches (v : GithubPushEvent) (h : HookConfig) : Prop :=
  v.repository.full_name = h.repo_name ∧ v.reference = "refs/heads/" ++ h.branch

instance (v : GithubPushEvent) (h : HookConfig) : Decidable (hookMatches v h) :=
  inferInstanceAs (Decidable (_ ∧ _))

/-- The text a multi-line block contributes to the log: one timestamped line
per input line, the first marked `:+:` and continuation lines marked `:|:`. -/
def linesText (now pfx : String) : List (Nat × String) → String
  | [] => ""
  | il :: rest =>
    (now ++ ": " ++ pfx ++ (if il.1 == 0 then ":+:" else ":|:") ++ il.2 ++ "\n")
      ++ linesText now pfx rest

/-- The text one `add_entry` call appends to the log. -/
def entryText (now pfx s : String) : String :=
  linesText now pfx (rustLines s).enum

/-- The log text a failing stage contributes (what
`render_command_error_to_log` appends for it), together with the clock tick
after it: a launch failure writes two ERROR entries (the stage separator and
the `error = <e>` line), a non-zero exit writes one ERROR entry rendering the
captured output. -/
def errEntryText (clock : Nat → String) (tick : Nat) (stage : String) :
    GitRepositoryError → String × Nat
  | .CommandError e =>
    (entryText (clock tick) "ERROR" ("\n--------\n" ++ stage ++ "\n--------\n")
      ++ entryText (clock (tick + 1)) "ERROR" ("error = " ++ e),
     tick + 1 + 1)
  | .CommandFailed out =>
    (entryText (clock tick) "ERROR" (out.format stage), tick + 1)

/-- The log after `render_command_error_to_log` has appended a failing stage's
ERROR entry (two entries for a launch failure, one for a non-zero exit). -/
def errLog (clock : Nat → String) (tick : Nat) (stage : String)
    (log : SimpleLog) : GitRepositoryError → SimpleLog
  | .CommandError e =>
    (log.add_entry (clock tick) "ERROR"
        ("\n--------\n" ++ stage ++ "\n--------\n")).add_entry
      (clock (tick + 1)) "ERROR" ("error = " ++ e)
  | .CommandFailed out => log.add_entry (clock tick) "ERROR" (out.format stage)

/-- The outcome `run_command` derives from one `exec` call: launch failure,
non-zero exit, or the output. -/
def execResult (env : Env σ) (w : σ) (inv : Invocation) :
    Except GitRepositoryError CommandOutput :=
  match (env.exec w inv).1 with
  | .error e => .error (.CommandError e)
  | .ok output =>
    if output.status == 0 then .ok output
    else .error (.CommandFailed output)

/-- The world after one `exec` call. -/
def execWorld (env : Env σ) (w : σ) (inv : Invocation) : σ :=
  (env.exec w inv).2

/-- Stage 1: `git fetch origin` in the checkout directory. -/
def fetchInv (hook : HookConfig) : Invocation :=
  ⟨hook.repository_directory, "git", ["fetch", "origin"]⟩

/-- Stage 2: `git checkout <branch>` in the checkout directory. -/
def checkoutInv (hook : HookConfig) : Invocation :=
  ⟨hook.repository_directory, "git", ["checkout", hook.branch]⟩

/-- Stage 3: `git rebase origin/<branch>` in the checkout directory. -/
def rebaseInv (hook : HookConfig) : Invocation :=
  ⟨hook.repository_directory, "git", ["rebase", "origin/" ++ hook.branch]⟩

/-- Stage 4: the configured deploy script, run in the checkout directory. -/
def scriptInv (hook : HookConfig) : Invocation :=
  ⟨hook.repository_directory, hook.script, []⟩

/-- The fixed stage sequence of the pipeline. -/
def stageList (hook : HookConfig) : List Invocation :=
  [fetchInv hook, checkoutInv hook, rebaseInv hook, scriptInv hook]

/-- The commands a straight-line pipeline launches from world `w`: each listed
invocation in order, stopping right after the first failing one; also returns
the final world. -/
def runStages (env : Env σ) (w : σ) : List Invocation → List Invocation × σ
  | [] => ([], w)
  | inv :: rest =>
    match execResult env w inv with
    | .error _ => ([inv], execWorld env w inv)
    | .ok _ =>
      let r := runStages env (execWorld env w inv) rest
      (inv :: r.1, r.2)

/-- The result a straight-line pipeline of the listed invocations produces:
`ok` when every stage launches and exits 0, otherwise the error of the first
failing stage. -/
def runStagesRes (env : Env σ) (w : σ) :
    List Invocation → Except GitRepositoryError Unit
  | [] => .ok ()
  | inv :: rest =>
    match execResult env w inv with
    | .error e => .error e
    | .ok _ => runStagesRes env (execWorld env w inv) rest

/-- The jobs the worker receives before the shutdown sentinel. -/
def jobsOf : List Event → List PushEvent
  | [] => []
  | .Done :: _ => []
  | .PushEvent e :: rest => e :: jobsOf rest

/-- The per-job pipeline traces of a FIFO job list, each job run to completion
from the world its predecessor left behind; also returns the final world. -/
def fifoRun (env : Env σ) : List PushEvent → σ → List (List Invocation) × σ
  | [], w => ([], w)
  | e :: rest, w =>
    let r := runStages env w (stageList e.hook)
    let rs := fifoRun env rest r.2
    (r.1 :: rs.1, rs.2)

/-! ### Helper lemmas: strings -/

theorem string_append_left_cancel {l a b : String} (h : l ++ a = l ++ b) :
    a = b := by
  have h' := congrArg String.data h
  simp only [String.data_append] at h'
  exact String.ext (List.append_cancel_left h')

theorem rustStripPfx_eq_some {s p r : String} :
    rustStripPfx s p = some r ↔ s = p ++ r := by
  unfold rustStripPfx
  by_cases h : p.data.isPrefixOf s.data
  · obtain ⟨t, ht⟩ := List.isPrefixOf_iff_prefix.mp h
    simp only [h, if_true, Option.some.injEq]
    constructor
    · intro h1
      apply String.ext
      rw [String.data_append, ← h1]
      show s.data = p.data ++ List.drop p.data.length s.data
      rw [← ht, List.drop_left]
    · intro h1
      apply String.ext
      show List.drop p.data.length s.data = r.data
      rw [h1, String.data_append, List.drop_left]
  · have hb : p.data.isPrefixOf s.data = false := Bool.eq_false_iff.mpr h
    simp only [hb, Bool.false_eq_true, if_false]
    constructor
    · intro h1; cases h1
    · intro h1
      exfalso
      apply h
      apply List.isPrefixOf_iff_prefix.mpr
      rw [h1, String.data_append]
      exact List.prefix_append _ _

theorem rustStripPfx_eq_none {s p : String} :
    rustStripPfx s p = none ↔ ∀ r, s ≠ p ++ r := by
  constructor
  · intro h r hr
    have := rustStripPfx_eq_some.mpr hr
    rw [h] at this
    cases this
  · intro h
    cases hs : rustStripPfx s p with
    | none => rfl
    | some r => exact absurd (rustStripPfx_eq_some.mp hs) (h r)

/-! ### Helper lemmas: routing -/

theorem hookCond_iff {v : GithubPushEvent} {h : HookConfig} :
    (v.repository.full_name == h.repo_name
      && v.reference == "refs/heads/" ++ h.branch) = true ↔ hookMatches v h := by
  simp [hookMatches, Bool.and_eq_true]

theorem hookLoop_eq_none {v : GithubPushEvent} {l : List HookConfig} :
    hookLoop v l = none ↔ ∀ h ∈ l, ¬ hookMatches v h := by
  induction l with
  | nil => simp [hookLoop]
  | cons hook rest ih =>
    by_cases hm : hookMatches v hook
    · have hc := hookCond_iff.mpr hm
      simp [hookLoop, hc, hm]
    · have hc : (v.repository.full_name == hook.repo_name
          && v.reference == "refs/heads/" ++ hook.branch) = false :=
        Bool.eq_false_iff.mpr fun hh => hm (hookCond_iff.mp hh)
      simp [hookLoop, hc, ih, hm]

theorem hookLoop_eq_some {v : GithubPushEvent} {l : List HookConfig}
    {h : HookConfig} :
    hookLoop v l = some h ↔
      ∃ pre post, l = pre ++ h :: post ∧ hookMatches v h ∧
        ∀ h' ∈ pre, ¬ hookMatches v h' := by
  induction l with
  | nil =>
    simp only [hookLoop]
    constructor
    · intro hh; cases hh
    · rintro ⟨pre, post, hl, -, -⟩
      exact absurd hl.symm (List.append_ne_nil_of_right_ne_nil pre (List.cons_ne_nil h post))
  | cons hook rest ih =>
    by_cases hm : hookMatches v hook
    · have hc := hookCond_iff.mpr hm
      simp only [hookLoop, hc, if_true, Option.some.injEq]
      constructor
      · rintro rfl
        exact ⟨[], rest, rfl, hm, by simp⟩
      · rintro ⟨pre, post, hl, hmh, hpre⟩
        cases pre with
        | nil =>
          simp only [List.nil_append, List.cons.injEq] at hl
          exact hl.1
        | cons p ps =>
          simp only [List.cons_append, List.cons.injEq] at hl
          exact absurd (hl.1 ▸ hm) (hpre p (by simp))
    · have hc : (v.repository.full_name == hook.repo_name
          && v.reference == "refs/heads/" ++ hook.branch) = false :=
        Bool.eq_false_iff.mpr fun hh => hm (hookCond_iff.mp hh)
      simp only [hookLoop, hc, Bool.false_eq_true, if_false]
      rw [ih]
      constructor
      · rintro ⟨pre, post, hl, hmh, hpre⟩
        refine ⟨hook :: pre, post, by simp [hl], hmh, ?_⟩
        rintro h' hh'
        rcases List.mem_cons.mp hh' with rfl | hmem
        · exact hm
        · exact hpre h' hmem
      · rintro ⟨pre, post, hl, hmh, hpre⟩
        cases pre with
        | nil =>
          simp only [List.nil_append, List.cons.injEq] at hl
          exact absurd (hl.1 ▸ hmh) hm
        | cons p ps =>
          simp only [List.cons_append, List.cons.injEq] at hl
          exact ⟨ps, post, hl.2, hmh, fun h' hh' => hpre h' (by simp [hh'])⟩

/-! ### Helper lemmas: logging -/

theorem foldl_linesText (now pfx : String) (l : List (Nat × String)) (c : String) :
    l.foldl
      (fun c il =>
        c ++ now ++ ": " ++ pfx ++ (if il.1 == 0 then ":+:" else ":|:")
          ++ il.2 ++ "\n")
      c = c ++ linesText now pfx l := by
  induction l generalizing c with
  | nil => simp [linesText]
  | cons il rest ih =>
    simp only [List.foldl_cons, linesText, ih]
    simp [String.append_assoc]

theorem add_entry_content (log : SimpleLog) (now pfx s : String) :
    (log.add_entry now pfx s).content = log.content ++ entryText now pfx s :=
  foldl_linesText now pfx (rustLines s).enum log.content

theorem linesText_mem {now pfx : String} {L : List (Nat × String)} {i : Nat}
    {l : String} (hm : (i, l) ∈ L) :
    ∃ pre post,
      linesText now pfx L
        = pre ++ (now ++ ": " ++ pfx ++ (if i == 0 then ":+:" else ":|:")
            ++ l ++ "\n") ++ post := by
  induction L with
  | nil => cases hm
  | cons il rest ih =>
    rcases List.mem_cons.mp hm with heq | hmem
    · refine ⟨"", linesText now pfx rest, ?_⟩
      rw [← heq, linesText, String.empty_append]
    · obtain ⟨pre, post, hp⟩ := ih hmem
      refine ⟨(now ++ ": " ++ pfx ++ (if il.1 == 0 then ":+:" else ":|:")
          ++ il.2 ++ "\n") ++ pre, post, ?_⟩
      rw [linesText, hp]
      simp [String.append_assoc]

/-! ### Helper lemmas: the pipeline -/

theorem run_command_eq (env : Env σ) (repo : GitRepository) (cmd : String)
    (args : List String) (st : PState σ) :
    repo.run_command env cmd args st =
      (execResult env st.world ⟨repo.repo_dir, cmd, args⟩,
       { st with world := execWorld env st.world ⟨repo.repo_dir, cmd, args⟩,
                 trace := st.trace ++ [⟨repo.repo_dir, cmd, args⟩] }) := by
  unfold GitRepository.run_command execResult execWorld
  rcases henv : env.exec st.world ⟨repo.repo_dir, cmd, args⟩ with ⟨r, w⟩
  cases r with
  | error e => simp [henv]
  | ok out =>
    by_cases hs : out.status == 0 <;> simp [henv, hs]

theorem handle_command_result_ok (env : Env σ) (v : CommandOutput)
    (stage : String) (log : SimpleLog) (st : PState σ) :
    handle_command_result env (.ok v) stage log st =
      (.ok (), log.add_entry (env.clock st.tick) "INFO" (v.format stage),
       { st with tick := st.tick + 1 }) := rfl

theorem handle_command_result_failed (env : Env σ) (out : CommandOutput)
    (stage : String) (log : SimpleLog) (st : PState σ) :
    handle_command_result env (.error (.CommandFailed out)) stage log st =
      (.error (.CommandFailed out),
       log.add_entry (env.clock st.tick) "ERROR" (out.format stage),
       { st with tick := st.tick + 1,
                 errSink := st.errSink ++ "Error " ++ stage ++ " - log follows\n"
                   ++ (log.add_entry (env.clock st.tick) "ERROR"
                        (out.format stage)).content }) := rfl

theorem handle_command_result_launch (env : Env σ) (e : String)
    (stage : String) (log : SimpleLog) (st : PState σ) :
    handle_command_result env (.error (.CommandError e)) stage log st =
      (.error (.CommandError e),
       (log.add_entry (env.clock st.tick) "ERROR"
           ("\n--------\n" ++ stage ++ "\n--------\n")).add_entry
         (env.clock (st.tick + 1)) "ERROR" ("error = " ++ e),
       { st with tick := st.tick + 1 + 1,
                 errSink := st.errSink ++ "Error " ++ stage ++ " - log follows\n"
                   ++ ((log.add_entry (env.clock st.tick) "ERROR"
                         ("\n--------\n" ++ stage ++ "\n--------\n")).add_entry
                       (env.clock (st.tick + 1)) "ERROR"
                       ("error = " ++ e)).content }) := rfl

theorem errLog_content (clock : Nat → String) (tick : Nat) (stage : String)
    (log : SimpleLog) (err : GitRepositoryError) :
    (errLog clock tick stage log err).content
      = log.content ++ (errEntryText clock tick stage err).1 := by
  cases err with
  | CommandError e =>
    simp [errLog, errEntryText, add_entry_content, String.append_assoc]
  | CommandFailed out => simp [errLog, errEntryText, add_entry_content]

theorem handle_command_result_error (env : Env σ) (err : GitRepositoryError)
    (stage : String) (log : SimpleLog) (st : PState σ) :
    handle_command_result env (.error err) stage log st
      = (.error err, errLog env.clock st.tick stage log err,
         { st with
            tick := (errEntryText env.clock st.tick stage err).2,
            errSink := st.errSink ++ "Error " ++ stage ++ " - log follows\n"
              ++ (errLog env.clock st.tick stage log err).content }) := by
  cases err <;> rfl

theorem handle_git_command_eq (env : Env σ) (args : List String)
    (stage : String) (log : SimpleLog) (repo : GitRepository) (st : PState σ) :
    handle_git_command env args stage log repo st =
      handle_command_result env
        (execResult env st.world ⟨repo.repo_dir, repo.git, args⟩) stage log
        { st with world := execWorld env st.world ⟨repo.repo_dir, repo.git, args⟩,
                  trace := st.trace ++ [⟨repo.repo_dir, repo.git, args⟩] } := by
  unfold handle_git_command GitRepository.run_git_command
  rw [run_command_eq]

theorem handle_command_eq (env : Env σ) (cmd : String) (stage : String)
    (log : SimpleLog) (repo : GitRepository) (st : PState σ) :
    handle_command env cmd stage log repo st =
      handle_command_result env
        (execResult env st.world ⟨repo.repo_dir, cmd, []⟩) stage log
        { st with world := execWorld env st.world ⟨repo.repo_dir, cmd, []⟩,
                  trace := st.trace ++ [⟨repo.repo_dir, cmd, []⟩] } := by
  unfold handle_command
  rw [run_command_eq]

theorem update_and_run_hook_spec (env : Env σ) (hook : HookConfig)
    (st : PState σ) :
    (update_and_run_hook env hook st).1
        = Except.mapError RouteError.GitRepositoryError
            (runStagesRes env st.world (stageList hook)) ∧
    (update_and_run_hook env hook st).2.trace
        = st.trace ++ (runStages env st.world (stageList hook)).1 ∧
    (update_and_run_hook env hook st).2.world
        = (runStages env st.world (stageList hook)).2 ∧
    (update_and_run_hook env hook st).2.processedJobs = st.processedJobs := by
  simp only [update_and_run_hook, stageList, fetchInv, checkoutInv, rebaseInv,
    scriptInv]
  rw [handle_git_command_eq]
  rcases h1 : execResult env st.world ⟨hook.repository_directory, "git", ["fetch", "origin"]⟩ with e1 | o1
  · cases e1 with
    | CommandError msg =>
      rw [handle_command_result_launch]
      simp [runStages, runStagesRes, h1, Except.mapError]
    | CommandFailed out =>
      rw [handle_command_result_failed]
      simp [runStages, runStagesRes, h1, Except.mapError]
  · rw [handle_command_result_ok]
    simp only []
    rw [handle_git_command_eq]
    dsimp only
    rcases h2 : execResult env
        (execWorld env st.world ⟨hook.repository_directory, "git", ["fetch", "origin"]⟩)
        ⟨hook.repository_directory, "git", ["checkout", hook.branch]⟩ with e2 | o2
    · cases e2 with
      | CommandError msg =>
        rw [handle_command_result_launch]
        simp [runStages, runStagesRes, h1, h2, Except.mapError, List.append_assoc]
      | CommandFailed out =>
        rw [handle_command_result_failed]
        simp [runStages, runStagesRes, h1, h2, Except.mapError, List.append_assoc]
    · rw [handle_command_result_ok]
      dsimp only
      rw [handle_git_command_eq]
      dsimp only
      rcases h3 : execResult env
          (execWorld env
            (execWorld env st.world ⟨hook.repository_directory, "git", ["fetch", "origin"]⟩)
            ⟨hook.repository_directory, "git", ["checkout", hook.branch]⟩)
          ⟨hook.repository_directory, "git", ["rebase", "origin/" ++ hook.branch]⟩ with e3 | o3
      · cases e3 with
        | CommandError msg =>
          rw [handle_command_result_launch]
          simp [runStages, runStagesRes, h1, h2, h3, Except.mapError, List.append_assoc]
        | CommandFailed out =>
          rw [handle_command_result_failed]
          simp [runStages, runStagesRes, h1, h2, h3, Except.mapError, List.append_assoc]
      · rw [handle_command_result_ok]
        dsimp only
        rw [handle_command_eq]
        dsimp only
        rcases h4 : execResult env
            (execWorld env
              (execWorld env
                (execWorld env st.world ⟨hook.repository_directory, "git", ["fetch", "origin"]⟩)
                ⟨hook.repository_directory, "git", ["checkout", hook.branch]⟩)
              ⟨hook.repository_directory, "git", ["rebase", "origin/" ++ hook.branch]⟩)
            ⟨hook.repository_directory, hook.script, []⟩ with e4 | o4
        · cases e4 with
          | CommandError msg =>
            rw [handle_command_result_launch]
            simp [runStages, runStagesRes, h1, h2, h3, h4, Except.mapError, List.append_assoc]
          | CommandFailed out =>
            rw [handle_command_result_failed]
            simp [runStages, runStagesRes, h1, h2, h3, h4, Except.mapError, List.append_assoc]
        · rw [handle_command_result_ok]
          simp [runStages, runStagesRes, h1, h2, h3, h4, Except.mapError, List.append_assoc]

theorem processJob_parts (env : Env σ) (e : PushEvent) (st : PState σ) :
    (processJob env e st).trace
        = st.trace ++ (runStages env st.world (stageList e.hook)).1 ∧
    (processJob env e st).world
        = (runStages env st.world (stageList e.hook)).2 ∧
    (processJob env e st).processedJobs = st.processedJobs ++ [e.hook.name] := by
  unfold processJob
  have hs := update_and_run_hook_spec env e.hook st
  rcases hu : update_and_run_hook env e.hook st with ⟨r, st'⟩
  rw [hu] at hs
  cases r with
  | ok a =>
    dsimp only at hs ⊢
    exact ⟨hs.2.1, hs.2.2.1, by rw [hs.2.2.2]⟩
  | error err =>
    dsimp only at hs ⊢
    exact ⟨hs.2.1, hs.2.2.1, by rw [hs.2.2.2]⟩

theorem worker_spec (env : Env σ) (events : List Event) (st : PState σ) :
    (worker env events st).trace
        = st.trace ++ (fifoRun env (jobsOf events) st.world).1.flatten ∧
    (worker env events st).world
        = (fifoRun env (jobsOf events) st.world).2 ∧
    (worker env events st).processedJobs
        = st.processedJobs ++ (jobsOf events).map (fun e => e.hook.name) := by
  induction events generalizing st with
  | nil => simp [worker, jobsOf, fifoRun]
  | cons ev rest ih =>
    cases ev with
    | Done => simp [worker, jobsOf, fifoRun]
    | PushEvent e =>
      have hj := processJob_parts env e st
      have hw := ih (processJob env e st)
      simp only [worker, jobsOf, fifoRun]
      refine ⟨?_, ?_, ?_⟩
      · rw [hw.1, hj.1, hj.2.1]
        simp [List.append_assoc]
      · rw [hw.2.1, hj.2.1]
      · rw [hw.2.2, hj.2.2]
        simp [List.append_assoc]

/-! ### Claim theorems -/

/-- C2: for every route and decoded push event, the router returns the first
hook target in configuration order whose `repo_name` equals the event's
repository `full_name` and whose branch satisfies
`ref = "refs/heads/" ++ branch`; if no registered target satisfies both
conditions it returns `none` — in particular a non-matching target is never
selected merely for sharing the route path. -/
theorem hook_for_event_first_match (r : Route) (v : GithubPushEvent) :
    (∀ h, r.hook_for_event v = some h ↔
      ∃ pre post, r.hooks = pre ++ h :: post ∧ hookMatches v h ∧
        ∀ h' ∈ pre, ¬ hookMatches v h') ∧
    (r.hook_for_event v = none ↔ ∀ h ∈ r.hooks, ¬ hookMatches v h) :=
  ⟨fun _ => hookLoop_eq_some, hookLoop_eq_none⟩

/-- C2 witness: on a route with two targets, an event matching only the second
selects the second (the first, sharing the route path, is skipped), and an
event matching neither is rejected. -/
theorem hook_for_event_first_match_witness :
    (Route.mk "/hook"
        [⟨"a", "org/a", "/hook", "/srv/a", "a.sh", "main", none⟩,
         ⟨"b", "org/b", "/hook", "/srv/b", "b.sh", "main", none⟩]).hook_for_event
        ⟨"refs/heads/main", ⟨"org/b"⟩⟩
      = some ⟨"b", "org/b", "/hook", "/srv/b", "b.sh", "main", none⟩ ∧
    (Route.mk "/hook"
        [⟨"a", "org/a", "/hook", "/srv/a", "a.sh", "main", none⟩]).hook_for_event
        ⟨"refs/heads/dev", ⟨"org/a"⟩⟩
      = none := by
  constructor
  · exact ((hook_for_event_first_match _ _).1 _).mpr
      ⟨[⟨"a", "org/a", "/hook", "/srv/a", "a.sh", "main", none⟩], [],
        rfl, by constructor <;> rfl, by decide⟩
  · exact (hook_for_event_first_match _ _).2.mpr (by decide)

/-- C1: with a configured secret, validation succeeds iff the request carries
an `X-Hub-Signature-256` header whose (last) value is the literal prefix
`sha256=` followed by a hex encoding of HMAC-SHA256 over the exact raw body
bytes keyed by the secret (`hexDecode rest = some (hmac secret body)`); a
missing header or a value without the prefix yields the malformed-header
error, a non-hex remainder yields the malformed-header error, and a
well-formed header whose decoded bytes differ from the computed HMAC yields
the signature-mismatch error. Without a secret, validation succeeds for every
request. -/
theorem validate_signature_spec (hmac : String → List Nat → List Nat)
    (hook : HookConfig) (req : Request) (body : List Nat) :
    (hook.secret = none →
      Route.validate_signature hmac hook req body = .ok ()) ∧
    ∀ secret, hook.secret = some secret →
      ((Route.validate_signature hmac hook req body = .ok () ↔
        ∃ hv rest, req.xHubSignature256 = some hv ∧
          headerLast hv = "sha256=" ++ rest ∧
          hexDecode rest = some (hmac secret body)) ∧
      (req.xHubSignature256 = none →
        Route.validate_signature hmac hook req body
          = .error "Missing X-Hub-Signature-256 header") ∧
      (∀ hv, req.xHubSignature256 = some hv →
        (∀ rest, headerLast hv ≠ "sha256=" ++ rest) →
        Route.validate_signature hmac hook req body
          = .error ("Malformed HTTP_X_HUB_SIGNATURE_256: should start with sha256= but was \x27"
              ++ headerLast hv ++ "\x27")) ∧
      (∀ hv rest, req.xHubSignature256 = some hv →
        headerLast hv = "sha256=" ++ rest → hexDecode rest = none →
        Route.validate_signature hmac hook req body
          = .error ("Malformed X-Hub-Signature-256: should be all hex, but was \x27"
              ++ rest ++ "\x27")) ∧
      (∀ hv rest bs, req.xHubSignature256 = some hv →
        headerLast hv = "sha256=" ++ rest → hexDecode rest = some bs →
        bs ≠ hmac secret body →
        Route.validate_signature hmac hook req body
          = .error "Invalid message signature")) := by
  constructor
  · intro h
    simp [Route.validate_signature, h]
  · intro secret hsec
    cases hh : req.xHubSignature256 with
    | none =>
      refine ⟨?_, fun _ => by simp [Route.validate_signature, hsec, hh], ?_, ?_, ?_⟩
      · simp [Route.validate_signature, hsec, hh]
      · intro hv hhv
        cases hhv
      · intro hv rest hhv
        cases hhv
      · intro hv rest bs hhv
        cases hhv
    | some hv =>
      rcases hsp : rustStripPfx (headerLast hv) "sha256=" with _ | sig
      · have hnp := rustStripPfx_eq_none.mp hsp
        refine ⟨?_, ?_, ?_, ?_, ?_⟩
        · simp only [Route.validate_signature, hsec, hh, hsp]
          constructor
          · intro h; cases h
          · rintro ⟨hv', rest, hhv', hpre, -⟩
            cases hhv'
            exact absurd hpre (hnp rest)
        · intro h; cases h
        · intro hv' hhv' _
          cases hhv'
          simp [Route.validate_signature, hsec, hh, hsp]
        · intro hv' rest hhv' hpre
          cases hhv'
          exact absurd hpre (hnp rest)
        · intro hv' rest bs hhv' hpre
          cases hhv'
          exact absurd hpre (hnp rest)
      · have hsp' := rustStripPfx_eq_some.mp hsp
        rcases hhd : hexDecode sig with _ | bs
        · refine ⟨?_, ?_, ?_, ?_, ?_⟩
          · simp only [Route.validate_signature, hsec, hh, hsp, hhd]
            constructor
            · intro h; cases h
            · rintro ⟨hv', rest, hhv', hpre, hdec⟩
              cases hhv'
              have : rest = sig :=
                string_append_left_cancel (hsp'.symm.trans hpre).symm
              rw [this, hhd] at hdec
              cases hdec
          · intro h; cases h
          · intro hv' hhv' hnone
            cases hhv'
            exact absurd hsp' (hnone sig)
          · intro hv' rest hhv' hpre _
            cases hhv'
            have : rest = sig :=
              string_append_left_cancel (hsp'.symm.trans hpre).symm
            subst this
            simp [Route.validate_signature, hsec, hh, hsp, hhd]
          · intro hv' rest bs hhv' hpre hdec
            cases hhv'
            have : rest = sig :=
              string_append_left_cancel (hsp'.symm.trans hpre).symm
            rw [this, hhd] at hdec
            cases hdec
        · by_cases hb : bs = hmac secret body
          · refine ⟨?_, ?_, ?_, ?_, ?_⟩
            · simp only [Route.validate_signature, hsec, hh, hsp, hhd]
              constructor
              · intro _
                exact ⟨hv, sig, rfl, hsp', by rw [hhd, hb]⟩
              · intro _
                simp [hb]
            · intro h; cases h
            · intro hv' hhv' hnone
              cases hhv'
              exact absurd hsp' (hnone sig)
            · intro hv' rest hhv' hpre hdec
              cases hhv'
              have : rest = sig :=
                string_append_left_cancel (hsp'.symm.trans hpre).symm
              rw [this, hhd] at hdec
              cases hdec
            · intro hv' rest bs' hhv' hpre hdec hb'
              cases hhv'
              have : rest = sig :=
                string_append_left_cancel (hsp'.symm.trans hpre).symm
              rw [this, hhd] at hdec
              cases hdec
              exact absurd hb hb'
          · refine ⟨?_, ?_, ?_, ?_, ?_⟩
            · simp only [Route.validate_signature, hsec, hh, hsp, hhd]
              constructor
              · intro h
                rw [if_neg (by simpa using hb)] at h
                cases h
              · rintro ⟨hv', rest, hhv', hpre, hdec⟩
                cases hhv'
                have : rest = sig :=
                  string_append_left_cancel (hsp'.symm.trans hpre).symm
                rw [this, hhd] at hdec
                cases hdec
                exact absurd rfl hb
            · intro h; cases h
            · intro hv' hhv' hnone
              cases hhv'
              exact absurd hsp' (hnone sig)
            · intro hv' rest hhv' hpre hdec
              cases hhv'
              have : rest = sig :=
                string_append_left_cancel (hsp'.symm.trans hpre).symm
              rw [this, hhd] at hdec
              cases hdec
            · intro hv' rest bs' hhv' hpre hdec _
              cases hhv'
              have : rest = sig :=
                string_append_left_cancel (hsp'.symm.trans hpre).symm
              rw [this] at hdec
              rw [hhd] at hdec
              cases hdec
              simp only [Route.validate_signature, hsec, hh, hsp, hhd]
              rw [if_neg (by simpa using hb)]

/-- C1 witness: with the secret `s3cr3t` and an HMAC function returning byte
`0xab`, a request whose header is `sha256=ab` validates, and a request with no
header is rejected with the missing-header error. -/
theorem validate_signature_spec_witness :
    Route.validate_signature (fun _ _ => [171])
        ⟨"h", "org/r", "/hook", "/srv", "run.sh", "main", some "s3cr3t"⟩
        ⟨.ok [1, 2, 3], some ("sha256=ab", [])⟩ [1, 2, 3] = .ok () ∧
    Route.validate_signature (fun _ _ => [171])
        ⟨"h", "org/r", "/hook", "/srv", "run.sh", "main", some "s3cr3t"⟩
        ⟨.ok [1, 2, 3], none⟩ [1, 2, 3]
      = .error "Missing X-Hub-Signature-256 header" := by
  constructor
  · exact ((validate_signature_spec _ _ _ _).2 "s3cr3t" rfl).1.mpr
      ⟨("sha256=ab", []), "ab", rfl, rfl, by decide⟩
  · exact ((validate_signature_spec _ _ _ _).2 "s3cr3t" rfl).2.1 rfl

/-- C10: signature validation reads only the last `X-Hub-Signature-256` header
value: validating with values `a :: l` equals validating with just their last
value; concretely, with HMAC byte `0xab`, a request whose two values end with
the correct `sha256=ab` validates, and a request where only the first value is
correct (the last being `sha256=00`) is rejected with the signature-mismatch
error. -/
theorem validate_signature_uses_last (hmac : String → List Nat → List Nat)
    (hook : HookConfig) (bodyR : Except String (List Nat)) (body : List Nat)
    (a : String) (l : List String) :
    (Route.validate_signature hmac hook ⟨bodyR, some (a, l)⟩ body
      = Route.validate_signature hmac hook
          ⟨bodyR, some (headerLast (a, l), [])⟩ body) ∧
    Route.validate_signature (fun _ _ => [171])
        ⟨"h", "org/r", "/hook", "/srv", "run.sh", "main", some "s"⟩
        ⟨.ok [], some ("sha256=00", ["sha256=ab"])⟩ [] = .ok () ∧
    Route.validate_signature (fun _ _ => [171])
        ⟨"h", "org/r", "/hook", "/srv", "run.sh", "main", some "s"⟩
        ⟨.ok [], some ("sha256=ab", ["sha256=00"])⟩ []
      = .error "Invalid message signature" := by
  refine ⟨?_, rfl, rfl⟩
  cases hook.secret <;> rfl

/-- C9: the startup loop emits, for every hook target in the loaded
configuration whose secret is absent, an explicit warning naming that hook; the
warnings are exactly one per secretless hook (never a silent default). -/
theorem startup_warns_missing_secret (hooks : List HookConfig) :
    (∀ h ∈ hooks, h.secret = none →
      missingSecretWarning h.name ∈ startupWarnings hooks) ∧
    startupWarnings hooks
      = (hooks.filter fun h => h.secret.isNone).map
          fun h => missingSecretWarning h.name := by
  have heq : startupWarnings hooks
      = (hooks.filter fun h => h.secret.isNone).map
          (fun h => missingSecretWarning h.name) := by
    induction hooks with
    | nil => rfl
    | cons hook rest ih =>
      cases hs : hook.secret with
      | none => simp [startupWarnings, hs, ih]
      | some s => simp [startupWarnings, hs, ih]
  refine ⟨?_, heq⟩
  intro h hm hsec
  rw [heq]
  exact List.mem_map_of_mem _ (List.mem_filter.mpr ⟨hm, by simp [hsec]⟩)

/-- C9 witness: in a two-hook configuration where only `beta` lacks a secret,
the startup warnings are exactly the warning naming `beta`. -/
theorem startup_warns_missing_secret_witness :
    missingSecretWarning "beta" ∈ startupWarnings
      [⟨"alpha", "org/a", "/a", "/srv/a", "a.sh", "main", some "s"⟩,
       ⟨"beta", "org/b", "/b", "/srv/b", "b.sh", "main", none⟩] :=
  (startup_warns_missing_secret _).1
    ⟨"beta", "org/b", "/b", "/srv/b", "b.sh", "main", none⟩ (by simp) rfl

/-- C8: `CommandOutput::format` renders a stage separator, a status line, and
labeled stdout/stderr sections; a section with empty captured bytes is
rendered explicitly as `[empty]` and never omitted; non-empty captured output
appears verbatim between the section label's newline and a closing newline (so
its content and line structure are preserved in the render); and a multi-line
block appended by `SimpleLog::add_entry` contributes exactly one timestamped
line per input line, the first with the `:+:` marker and continuation lines
with the `:|:` marker. -/
theorem format_and_add_entry_spec (out : CommandOutput)
    (stage now pfx s : String) (log : SimpleLog) :
    (∃ rest, out.format stage
      = "\n--------\n" ++ stage ++ "\n--------\n"
        ++ "++ status = " ++ statusDisplay out.status ++ "\n" ++ rest) ∧
    (out.stdout = "" →
      ∃ pre post, out.format stage = pre ++ "++ stdout [empty]\n" ++ post) ∧
    (out.stderr = "" →
      ∃ pre, out.format stage = pre ++ "++ stderr [empty]\n") ∧
    (out.stdout ≠ "" →
      ∃ pre post, out.format stage
        = pre ++ "++ stdout\n" ++ out.stdout ++ "\n" ++ post) ∧
    (out.stderr ≠ "" →
      ∃ pre, out.format stage = pre ++ "++ stderr\n" ++ out.stderr ++ "\n") ∧
    ((log.add_entry now pfx s).content = log.content ++ entryText now pfx s) ∧
    (∀ i line, (i, line) ∈ (rustLines s).enum →
      ∃ pre post, (log.add_entry now pfx s).content
        = pre ++ (now ++ ": " ++ pfx ++ (if i == 0 then ":+:" else ":|:")
            ++ line ++ "\n") ++ post) := by
  refine ⟨?_, ?_, ?_, ?_, ?_, add_entry_content log now pfx s, ?_⟩
  · refine ⟨(if out.stdout == "" then "++ stdout [empty]\n"
        else "++ stdout\n" ++ out.stdout ++ "\n")
      ++ (if out.stderr == "" then "++ stderr [empty]\n"
        else "++ stderr\n" ++ out.stderr ++ "\n"), ?_⟩
    apply String.ext
    simp [CommandOutput.format, String.data_append, List.append_assoc]
  · intro h
    refine ⟨"\n--------\n" ++ stage ++ "\n--------\n"
        ++ "++ status = " ++ statusDisplay out.status ++ "\n",
      (if out.stderr == "" then "++ stderr [empty]\n"
        else "++ stderr\n" ++ out.stderr ++ "\n"), ?_⟩
    apply String.ext
    simp [CommandOutput.format, h, String.data_append, List.append_assoc]
  · intro h
    refine ⟨"\n--------\n" ++ stage ++ "\n--------\n"
        ++ "++ status = " ++ statusDisplay out.status ++ "\n"
        ++ (if out.stdout == "" then "++ stdout [empty]\n"
          else "++ stdout\n" ++ out.stdout ++ "\n"), ?_⟩
    apply String.ext
    simp [CommandOutput.format, h, String.data_append, List.append_assoc]
  · intro h
    refine ⟨"\n--------\n" ++ stage ++ "\n--------\n"
        ++ "++ status = " ++ statusDisplay out.status ++ "\n",
      (if out.stderr == "" then "++ stderr [empty]\n"
        else "++ stderr\n" ++ out.stderr ++ "\n"), ?_⟩
    apply String.ext
    simp [CommandOutput.format, h, String.data_append, List.append_assoc]
  · intro h
    refine ⟨"\n--------\n" ++ stage ++ "\n--------\n"
        ++ "++ status = " ++ statusDisplay out.status ++ "\n"
        ++ (if out.stdout == "" then "++ stdout [empty]\n"
          else "++ stdout\n" ++ out.stdout ++ "\n"), ?_⟩
    apply String.ext
    simp [CommandOutput.format, h, String.data_append, List.append_assoc]
  · intro i line hm
    obtain ⟨pre, post, hp⟩ := @linesText_mem now pfx _ _ _ hm
    refine ⟨log.content ++ pre, post, ?_⟩
    rw [add_entry_content, entryText, hp]
    simp [String.append_assoc]

/-- C8 witness: for an output with empty stdout and stderr `oops`, the render
marks stdout `[empty]` and contains `oops` verbatim; appending the two-line
block `a\nb` yields the `:+:`-marked line `a` and the `:|:`-marked line `b`. -/
theorem format_and_add_entry_spec_witness :
    (∃ pre post, CommandOutput.format ⟨0, "", "oops"⟩ "st"
      = pre ++ "++ stdout [empty]\n" ++ post) ∧
    (∃ pre, CommandOutput.format ⟨0, "", "oops"⟩ "st"
      = pre ++ "++ stderr\n" ++ "oops" ++ "\n") ∧
    (∃ pre post, (SimpleLog.add_entry ⟨""⟩ "T" "INFO" "a\nb").content
      = pre ++ ("T" ++ ": " ++ "INFO" ++ (if 1 == 0 then ":+:" else ":|:")
          ++ "b" ++ "\n") ++ post) :=
  ⟨(format_and_add_entry_spec ⟨0, "", "oops"⟩ "st" "T" "INFO" "a\nb" ⟨""⟩).2.1 rfl,
   (format_and_add_entry_spec ⟨0, "", "oops"⟩ "st" "T" "INFO" "a\nb" ⟨""⟩).2.2.2.2.1
     (by decide),
   (format_and_add_entry_spec ⟨0, "", "oops"⟩ "st" "T" "INFO" "a\nb" ⟨""⟩).2.2.2.2.2.2
     1 "b" (by decide)⟩

/-- C3: the pipeline launches exactly the fixed sequence `git fetch origin`,
`git checkout <branch>`, `git rebase origin/<branch>`, then the deploy script,
all in the checkout directory; if a stage fails (`execResult` is an error both
when the command fails to launch, `CommandError`, and when it exits non-zero,
`CommandFailed`), that stage's error is returned at once and no later stage is
launched. -/
theorem pipeline_stage_sequence (env : Env σ) (hook : HookConfig)
    (st : PState σ) :
    (∀ e, execResult env st.world (fetchInv hook) = .error e →
      (update_and_run_hook env hook st).1 = .error (.GitRepositoryError e) ∧
      (update_and_run_hook env hook st).2.trace = st.trace ++ [fetchInv hook]) ∧
    (∀ out1 e, execResult env st.world (fetchInv hook) = .ok out1 →
      execResult env (execWorld env st.world (fetchInv hook))
          (checkoutInv hook) = .error e →
      (update_and_run_hook env hook st).1 = .error (.GitRepositoryError e) ∧
      (update_and_run_hook env hook st).2.trace
        = st.trace ++ [fetchInv hook, checkoutInv hook]) ∧
    (∀ out1 out2 e, execResult env st.world (fetchInv hook) = .ok out1 →
      execResult env (execWorld env st.world (fetchInv hook))
          (checkoutInv hook) = .ok out2 →
      execResult env (execWorld env (execWorld env st.world (fetchInv hook))
          (checkoutInv hook)) (rebaseInv hook) = .error e →
      (update_and_run_hook env hook st).1 = .error (.GitRepositoryError e) ∧
      (update_and_run_hook env hook st).2.trace
        = st.trace ++ [fetchInv hook, checkoutInv hook, rebaseInv hook]) ∧
    (∀ out1 out2 out3 e, execResult env st.world (fetchInv hook) = .ok out1 →
      execResult env (execWorld env st.world (fetchInv hook))
          (checkoutInv hook) = .ok out2 →
      execResult env (execWorld env (execWorld env st.world (fetchInv hook))
          (checkoutInv hook)) (rebaseInv hook) = .ok out3 →
      execResult env (execWorld env (execWorld env
          (execWorld env st.world (fetchInv hook)) (checkoutInv hook))
          (rebaseInv hook)) (scriptInv hook) = .error e →
      (update_and_run_hook env hook st).1 = .error (.GitRepositoryError e) ∧
      (update_and_run_hook env hook st).2.trace = st.trace ++ stageList hook) ∧
    (∀ out1 out2 out3 out4, execResult env st.world (fetchInv hook) = .ok out1 →
      execResult env (execWorld env st.world (fetchInv hook))
          (checkoutInv hook) = .ok out2 →
      execResult env (execWorld env (execWorld env st.world (fetchInv hook))
          (checkoutInv hook)) (rebaseInv hook) = .ok out3 →
      execResult env (execWorld env (execWorld env
          (execWorld env st.world (fetchInv hook)) (checkoutInv hook))
          (rebaseInv hook)) (scriptInv hook) = .ok out4 →
      (update_and_run_hook env hook st).1 = .ok () ∧
      (update_and_run_hook env hook st).2.trace = st.trace ++ stageList hook) := by
  have hs := update_and_run_hook_spec env hook st
  refine ⟨?_, ?_, ?_, ?_, ?_⟩
  · intro e h1
    exact ⟨by rw [hs.1]; simp [runStagesRes, stageList, h1, Except.mapError],
      by rw [hs.2.1]; simp [runStages, stageList, h1]⟩
  · intro out1 e h1 h2
    exact ⟨by rw [hs.1]; simp [runStagesRes, stageList, h1, h2, Except.mapError],
      by rw [hs.2.1]; simp [runStages, stageList, h1, h2]⟩
  · intro out1 out2 e h1 h2 h3
    exact ⟨by rw [hs.1]; simp [runStagesRes, stageList, h1, h2, h3, Except.mapError],
      by rw [hs.2.1]; simp [runStages, stageList, h1, h2, h3]⟩
  · intro out1 out2 out3 e h1 h2 h3 h4
    exact ⟨by rw [hs.1]; simp [runStagesRes, stageList, h1, h2, h3, h4, Except.mapError],
      by rw [hs.2.1]; simp [runStages, stageList, h1, h2, h3, h4]⟩
  · intro out1 out2 out3 out4 h1 h2 h3 h4
    exact ⟨by rw [hs.1]; simp [runStagesRes, stageList, h1, h2, h3, h4, Except.mapError],
      by rw [hs.2.1]; simp [runStages, stageList, h1, h2, h3, h4]⟩

/-- C3 witness: under an environment where every command exits 0, the pipeline
returns `ok` and its trace is exactly the four stage invocations. -/
theorem pipeline_stage_sequence_witness :
    (update_and_run_hook
        (⟨fun _ _ => (.ok ⟨0, "", ""⟩, ()), fun _ => "T"⟩ : Env Unit)
        ⟨"h", "org/r", "/hook", "/srv", "run.sh", "main", none⟩
        ⟨(), 0, [], "", []⟩).1 = .ok () ∧
    (update_and_run_hook
        (⟨fun _ _ => (.ok ⟨0, "", ""⟩, ()), fun _ => "T"⟩ : Env Unit)
        ⟨"h", "org/r", "/hook", "/srv", "run.sh", "main", none⟩
        ⟨(), 0, [], "", []⟩).2.trace
      = [] ++ stageList ⟨"h", "org/r", "/hook", "/srv", "run.sh", "main", none⟩ :=
  (pipeline_stage_sequence _ _ _).2.2.2.2 ⟨0, "", ""⟩ ⟨0, "", ""⟩ ⟨0, "", ""⟩
    ⟨0, "", ""⟩ rfl rfl rfl rfl

/-- C5: for every pipeline run, every executed stage's result — success or
failure — is appended to the execution log with its stage label before the
pipeline proceeds or aborts, and on the first failing stage (at any of the
four stages, whether it fails to launch, `CommandError`, or exits non-zero,
`CommandFailed`) the accumulated log is flushed to stderr synchronously before
the function returns: the returned state's stderr gains the
`Error <stage> - log follows` line followed by exactly one INFO block per
completed earlier stage and the failing stage's ERROR entry, the trace stops
at the failing stage, and a fully successful run flushes nothing (the log is
discarded). In particular when rebase exits non-zero the script never runs and
the flushed log holds exactly the three blocks fetch (INFO), checkout (INFO),
rebase (ERROR). -/
theorem pipeline_log_flush_on_first_failure (env : Env σ) (hook : HookConfig)
    (st : PState σ) :
    (∀ err, execResult env st.world (fetchInv hook) = .error err →
      update_and_run_hook env hook st
        = (.error (.GitRepositoryError err),
           { st with
              world := execWorld env st.world (fetchInv hook),
              tick := (errEntryText env.clock st.tick
                  "fetching latest changes" err).2,
              trace := st.trace ++ [fetchInv hook],
              errSink := st.errSink
                ++ "Error fetching latest changes - log follows\n"
                ++ (errEntryText env.clock st.tick
                    "fetching latest changes" err).1 })) ∧
    (∀ out1 err, execResult env st.world (fetchInv hook) = .ok out1 →
      execResult env (execWorld env st.world (fetchInv hook))
          (checkoutInv hook) = .error err →
      update_and_run_hook env hook st
        = (.error (.GitRepositoryError err),
           { st with
              world := execWorld env (execWorld env st.world (fetchInv hook))
                (checkoutInv hook),
              tick := (errEntryText env.clock (st.tick + 1)
                  "checking out main branch" err).2,
              trace := st.trace ++ [fetchInv hook, checkoutInv hook],
              errSink := st.errSink
                ++ "Error checking out main branch - log follows\n"
                ++ (entryText (env.clock st.tick) "INFO"
                    (out1.format "fetching latest changes")
                  ++ (errEntryText env.clock (st.tick + 1)
                      "checking out main branch" err).1) })) ∧
    (∀ out1 out2 err, execResult env st.world (fetchInv hook) = .ok out1 →
      execResult env (execWorld env st.world (fetchInv hook))
          (checkoutInv hook) = .ok out2 →
      execResult env (execWorld env (execWorld env st.world (fetchInv hook))
          (checkoutInv hook)) (rebaseInv hook) = .error err →
      update_and_run_hook env hook st
        = (.error (.GitRepositoryError err),
           { st with
              world := execWorld env (execWorld env
                  (execWorld env st.world (fetchInv hook)) (checkoutInv hook))
                (rebaseInv hook),
              tick := (errEntryText env.clock (st.tick + 1 + 1)
                  "rebasing onto latest changes" err).2,
              trace := st.trace
                ++ [fetchInv hook, checkoutInv hook, rebaseInv hook],
              errSink := st.errSink
                ++ "Error rebasing onto latest changes - log follows\n"
                ++ (entryText (env.clock st.tick) "INFO"
                    (out1.format "fetching latest changes")
                  ++ entryText (env.clock (st.tick + 1)) "INFO"
                    (out2.format "checking out main branch")
                  ++ (errEntryText env.clock (st.tick + 1 + 1)
                      "rebasing onto latest changes" err).1) })) ∧
    (∀ out1 out2 out3 err, execResult env st.world (fetchInv hook) = .ok out1 →
      execResult env (execWorld env st.world (fetchInv hook))
          (checkoutInv hook) = .ok out2 →
      execResult env (execWorld env (execWorld env st.world (fetchInv hook))
          (checkoutInv hook)) (rebaseInv hook) = .ok out3 →
      execResult env (execWorld env (execWorld env
          (execWorld env st.world (fetchInv hook)) (checkoutInv hook))
          (rebaseInv hook)) (scriptInv hook) = .error err →
      update_and_run_hook env hook st
        = (.error (.GitRepositoryError err),
           { st with
              world := execWorld env (execWorld env (execWorld env
                  (execWorld env st.world (fetchInv hook)) (checkoutInv hook))
                  (rebaseInv hook)) (scriptInv hook),
              tick := (errEntryText env.clock (st.tick + 1 + 1 + 1)
                  "running hook" err).2,
              trace := st.trace ++ stageList hook,
              errSink := st.errSink ++ "Error running hook - log follows\n"
                ++ (entryText (env.clock st.tick) "INFO"
                    (out1.format "fetching latest changes")
                  ++ entryText (env.clock (st.tick + 1)) "INFO"
                    (out2.format "checking out main branch")
                  ++ entryText (env.clock (st.tick + 1 + 1)) "INFO"
                    (out3.format "rebasing onto latest changes")
                  ++ (errEntryText env.clock (st.tick + 1 + 1 + 1)
                      "running hook" err).1) })) ∧
    (∀ out1 out2 out3 out4, execResult env st.world (fetchInv hook) = .ok out1 →
      execResult env (execWorld env st.world (fetchInv hook))
          (checkoutInv hook) = .ok out2 →
      execResult env (execWorld env (execWorld env st.world (fetchInv hook))
          (checkoutInv hook)) (rebaseInv hook) = .ok out3 →
      execResult env (execWorld env (execWorld env
          (execWorld env st.world (fetchInv hook)) (checkoutInv hook))
          (rebaseInv hook)) (scriptInv hook) = .ok out4 →
      update_and_run_hook env hook st
        = (.ok (),
           { st with
              world := execWorld env (execWorld env (execWorld env
                  (execWorld env st.world (fetchInv hook)) (checkoutInv hook))
                  (rebaseInv hook)) (scriptInv hook),
              tick := st.tick + 1 + 1 + 1 + 1,
              trace := st.trace ++ stageList hook })) := by
  refine ⟨?_, ?_, ?_, ?_, ?_⟩
  · intro err h1
    simp only [fetchInv] at h1
    simp only [update_and_run_hook]
    rw [handle_git_command_eq]
    dsimp only
    rw [h1, handle_command_result_error]
    dsimp only
    simp [errLog_content, add_entry_content, String.empty_append,
      String.append_assoc, List.append_assoc, fetchInv]
  · intro out1 err h1 h2
    simp only [fetchInv] at h1
    simp only [fetchInv, checkoutInv] at h2
    simp only [update_and_run_hook]
    rw [handle_git_command_eq]
    dsimp only
    rw [h1, handle_command_result_ok]
    dsimp only
    rw [handle_git_command_eq]
    dsimp only
    rw [h2, handle_command_result_error]
    dsimp only
    simp [errLog_content, add_entry_content, String.empty_append,
      String.append_assoc, List.append_assoc, fetchInv, checkoutInv]
  · intro out1 out2 err h1 h2 h3
    simp only [fetchInv] at h1
    simp only [fetchInv, checkoutInv] at h2
    simp only [fetchInv, checkoutInv, rebaseInv] at h3
    simp only [update_and_run_hook]
    rw [handle_git_command_eq]
    dsimp only
    rw [h1, handle_command_result_ok]
    dsimp only
    rw [handle_git_command_eq]
    dsimp only
    rw [h2, handle_command_result_ok]
    dsimp only
    rw [handle_git_command_eq]
    dsimp only
    rw [h3, handle_command_result_error]
    dsimp only
    simp [errLog_content, add_entry_content, String.empty_append,
      String.append_assoc, List.append_assoc, fetchInv, checkoutInv, rebaseInv]
  · intro out1 out2 out3 err h1 h2 h3 h4
    simp only [fetchInv] at h1
    simp only [fetchInv, checkoutInv] at h2
    simp only [fetchInv, checkoutInv, rebaseInv] at h3
    simp only [fetchInv, checkoutInv, rebaseInv, scriptInv] at h4
    simp only [update_and_run_hook]
    rw [handle_git_command_eq]
    dsimp only
    rw [h1, handle_command_result_ok]
    dsimp only
    rw [handle_git_command_eq]
    dsimp only
    rw [h2, handle_command_result_ok]
    dsimp only
    rw [handle_git_command_eq]
    dsimp only
    rw [h3, handle_command_result_ok]
    dsimp only
    rw [handle_command_eq]
    dsimp only
    rw [h4, handle_command_result_error]
    dsimp only
    simp [errLog_content, add_entry_content, String.empty_append,
      String.append_assoc, List.append_assoc, stageList, fetchInv, checkoutInv,
      rebaseInv, scriptInv]
  · intro out1 out2 out3 out4 h1 h2 h3 h4
    simp only [fetchInv] at h1
    simp only [fetchInv, checkoutInv] at h2
    simp only [fetchInv, checkoutInv, rebaseInv] at h3
    simp only [fetchInv, checkoutInv, rebaseInv, scriptInv] at h4
    simp only [update_and_run_hook]
    rw [handle_git_command_eq]
    dsimp only
    rw [h1, handle_command_result_ok]
    dsimp only
    rw [handle_git_command_eq]
    dsimp only
    rw [h2, handle_command_result_ok]
    dsimp only
    rw [handle_git_command_eq]
    dsimp only
    rw [h3, handle_command_result_ok]
    dsimp only
    rw [handle_command_eq]
    dsimp only
    rw [h4, handle_command_result_ok]
    dsimp only
    simp [List.append_assoc, stageList, fetchInv, checkoutInv, rebaseInv,
      scriptInv]

/-- C5 witness: with the first two commands exiting 0 and the third exiting 1,
the pipeline stops after rebase and flushes the three-stage log (scenario D);
and with every launch failing, the pipeline stops at fetch and flushes the
launch-failure ERROR entries for the fetch stage alone. -/
theorem pipeline_log_flush_on_first_failure_witness :
    update_and_run_hook
        (⟨fun n _ => (if n < 2 then .ok ⟨0, "", ""⟩ else .ok ⟨1, "", ""⟩, n + 1),
          fun _ => "T"⟩ : Env Nat)
        ⟨"h", "org/r", "/hook", "/srv", "run.sh", "main", none⟩
        ⟨0, 0, [], "", []⟩ =
      (.error (.GitRepositoryError (.CommandFailed ⟨1, "", ""⟩)),
       { world := 3, tick := 0 + 1 + 1 + 1,
         trace := [] ++
           [fetchInv ⟨"h", "org/r", "/hook", "/srv", "run.sh", "main", none⟩,
            checkoutInv ⟨"h", "org/r", "/hook", "/srv", "run.sh", "main", none⟩,
            rebaseInv ⟨"h", "org/r", "/hook", "/srv", "run.sh", "main", none⟩],
         errSink := ""
           ++ "Error rebasing onto latest changes - log follows\n"
           ++ (entryText "T" "INFO"
                 (CommandOutput.format ⟨0, "", ""⟩ "fetching latest changes")
             ++ entryText "T" "INFO"
                 (CommandOutput.format ⟨0, "", ""⟩ "checking out main branch")
             ++ entryText "T" "ERROR"
                 (CommandOutput.format ⟨1, "", ""⟩ "rebasing onto latest changes")),
         processedJobs := [] }) ∧
    update_and_run_hook
        (⟨fun _ _ => (.error "boom", ()), fun _ => "T"⟩ : Env Unit)
        ⟨"h", "org/r", "/hook", "/srv", "run.sh", "main", none⟩
        ⟨(), 0, [], "", []⟩ =
      (.error (.GitRepositoryError (.CommandError "boom")),
       { world := (), tick := 0 + 1 + 1,
         trace := [] ++
           [fetchInv ⟨"h", "org/r", "/hook", "/srv", "run.sh", "main", none⟩],
         errSink := ""
           ++ "Error fetching latest changes - log follows\n"
           ++ (entryText "T" "ERROR"
                 "\n--------\nfetching latest changes\n--------\n"
             ++ entryText "T" "ERROR" "error = boom"),
         processedJobs := [] }) := by
  constructor
  · exact (pipeline_log_flush_on_first_failure _ _ _).2.2.1 ⟨0, "", ""⟩
      ⟨0, "", ""⟩ (.CommandFailed ⟨1, "", ""⟩) rfl rfl rfl
  · exact (pipeline_log_flush_on_first_failure _ _ _).1
      (.CommandError "boom") rfl

theorem fifoRun_forall₂ (env : Env σ) (jobs : List PushEvent) (w : σ) :
    List.Forall₂
      (fun tr (e : PushEvent) => tr ≠ [] ∧ tr.head? = some (fetchInv e.hook))
      (fifoRun env jobs w).1 jobs := by
  induction jobs generalizing w with
  | nil => simp [fifoRun]
  | cons e rest ih =>
    simp only [fifoRun]
    refine List.Forall₂.cons ?_ (ih _)
    rcases hr : execResult env w (fetchInv e.hook) with e1 | o1 <;>
      simp [runStages, stageList, hr]

/-- C6: the worker's command trace is the concatenation, in FIFO channel
order, of one complete pipeline trace per queued job received before the
shutdown sentinel — so one job's pipeline fully completes before the next
begins, every push (including repeats of the same target) gets its own
nonempty pipeline run starting with its fetch stage, and there is no
coalescing or deduplication (one trace segment per job, in order). -/
theorem worker_fifo_serialized (env : Env σ) (events : List Event)
    (st : PState σ) :
    (worker env events st).trace
      = st.trace ++ (fifoRun env (jobsOf events) st.world).1.flatten ∧
    List.Forall₂
      (fun tr (e : PushEvent) => tr ≠ [] ∧ tr.head? = some (fetchInv e.hook))
      (fifoRun env (jobsOf events) st.world).1 (jobsOf events) ∧
    (fifoRun env (jobsOf events) st.world).1.length
      = (jobsOf events).length :=
  ⟨(worker_spec env events st).1,
   fifoRun_forall₂ env (jobsOf events) st.world,
   (fifoRun_forall₂ env (jobsOf events) st.world).length_eq⟩

/-- C6 witness: two identical queued pushes each get their own pipeline run
(here each run is the failing fetch stage alone), in order, and the job after
the sentinel is not run. -/
theorem worker_fifo_serialized_witness :
    (worker (⟨fun _ _ => (.error "down", ()), fun _ => "T"⟩ : Env Unit)
        [.PushEvent ⟨⟨"h", "org/r", "/hook", "/srv", "run.sh", "main", none⟩,
            ⟨"refs/heads/main", ⟨"org/r"⟩⟩⟩,
         .PushEvent ⟨⟨"h", "org/r", "/hook", "/srv", "run.sh", "main", none⟩,
            ⟨"refs/heads/main", ⟨"org/r"⟩⟩⟩,
         .Done,
         .PushEvent ⟨⟨"h", "org/r", "/hook", "/srv", "run.sh", "main", none⟩,
            ⟨"refs/heads/main", ⟨"org/r"⟩⟩⟩]
        ⟨(), 0, [], "", []⟩).trace
      = [fetchInv ⟨"h", "org/r", "/hook", "/srv", "run.sh", "main", none⟩,
         fetchInv ⟨"h", "org/r", "/hook", "/srv", "run.sh", "main", none⟩] := by
  rw [(worker_fifo_serialized _ _ _).1]
  rfl

/-- C7: a pipeline error is never surfaced to an HTTP caller
(`process_request` never returns the `GitRepositoryError` variant the pipeline
produces), the worker processes every job received before the shutdown
sentinel regardless of pipeline failures (one failing deployment never halts
later jobs), a failing job only appends the `Error running hook` line to
stderr, and the worker loop exits only upon receiving the `Done` sentinel. -/
theorem pipeline_errors_not_surfaced (env : Env σ) (events : List Event)
    (st : PState σ) :
    (∀ hmac decode (r : Route) (chOk : Bool) (req : Request) e,
      (r.process_request hmac decode chOk req).1
        ≠ .error (.GitRepositoryError e)) ∧
    (worker env events st).processedJobs
      = st.processedJobs ++ (jobsOf events).map (fun e => e.hook.name) ∧
    (∀ rest, worker env (.Done :: rest) st = st) ∧
    (∀ (e : PushEvent) err st',
      update_and_run_hook env e.hook st = (.error err, st') →
      processJob env e st
        = { st' with errSink := st'.errSink ++ errRunningHook e.hook.name err,
                     processedJobs := st'.processedJobs ++ [e.hook.name] }) := by
  refine ⟨?_, (worker_spec env events st).2.2, fun _ => rfl, ?_⟩
  · intro hmac decode r chOk req e
    unfold Route.process_request
    rcases hb : req.bodyResult with eb | body
    · simp [hb]
    · rcases hd : decode body with ed | v
      · simp [hb, hd]
      · rcases hk : r.hook_for_event v with _ | hook
        · simp [hb, hd, hk]
        · rcases hv : Route.validate_signature hmac hook req body with ev | u
          · simp [hb, hd, hk, hv]
          · cases chOk <;> simp [hb, hd, hk, hv]
  · intro e err st' h
    unfold processJob
    rw [h]

/-- C7 witness: under an environment where every launch fails, the worker
still processes both queued jobs (their names are both recorded), a lone
sentinel stops it unchanged, and a failing job only appends the error line to
stderr. -/
theorem pipeline_errors_not_surfaced_witness :
    (worker (⟨fun _ _ => (.error "down", ()), fun _ => "T"⟩ : Env Unit)
        [.PushEvent ⟨⟨"h", "org/r", "/hook", "/srv", "run.sh", "main", none⟩,
            ⟨"refs/heads/main", ⟨"org/r"⟩⟩⟩,
         .PushEvent ⟨⟨"h", "org/r", "/hook", "/srv", "run.sh", "main", none⟩,
            ⟨"refs/heads/main", ⟨"org/r"⟩⟩⟩]
        ⟨(), 0, [], "", []⟩).processedJobs = [] ++ ["h", "h"] ∧
    worker (⟨fun _ _ => (.error "down", ()), fun _ => "T"⟩ : Env Unit)
        [.Done] ⟨(), 0, [], "", []⟩ = ⟨(), 0, [], "", []⟩ ∧
    processJob (⟨fun _ _ => (.error "down", ()), fun _ => "T"⟩ : Env Unit)
        ⟨⟨"h", "org/r", "/hook", "/srv", "run.sh", "main", none⟩,
         ⟨"refs/heads/main", ⟨"org/r"⟩⟩⟩
        ⟨(), 0, [], "", []⟩
      = { (⟨(), 2, [fetchInv ⟨"h", "org/r", "/hook", "/srv", "run.sh", "main", none⟩],
            "" ++ "Error fetching latest changes - log follows\n"
              ++ (entryText "T" "ERROR" "\n--------\nfetching latest changes\n--------\n"
                ++ entryText "T" "ERROR" "error = down"),
            []⟩ : PState Unit) with
          errSink := ("" ++ "Error fetching latest changes - log follows\n"
              ++ (entryText "T" "ERROR" "\n--------\nfetching latest changes\n--------\n"
                ++ entryText "T" "ERROR" "error = down"))
            ++ errRunningHook "h" (.GitRepositoryError (.CommandError "down")),
          processedJobs := [] ++ ["h"] } := by
  refine ⟨(pipeline_errors_not_surfaced _ _ _).2.1, (pipeline_errors_not_surfaced
    (⟨fun _ _ => (.error "down", ()), fun _ => "T"⟩ : Env Unit) [] ⟨(), 0, [], "", []⟩).2.2.1 [], ?_⟩
  exact (pipeline_errors_not_surfaced _ [] _).2.2.2
    ⟨⟨"h", "org/r", "/hook", "/srv", "run.sh", "main", none⟩,
     ⟨"refs/heads/main", ⟨"org/r"⟩⟩⟩
    (.GitRepositoryError (.CommandError "down")) _ rfl

theorem append_close_paren_ne_empty (a b : String) : a ++ b ++ ")" ≠ "" := by
  intro h
  have h' := congrArg String.data h
  simp only [String.data_append] at h'
  exact absurd (List.append_eq_nil.mp h').2 (by decide)

theorem routeErrorDebug_ne_empty (e : RouteError) : routeErrorDebug e ≠ "" := by
  cases e with
  | TideError e => exact append_close_paren_ne_empty _ _
  | GitRepositoryError e => exact append_close_paren_ne_empty _ _
  | DecodingError e => exact append_close_paren_ne_empty _ _
  | AuthenticationError e => exact append_close_paren_ne_empty _ _
  | ChannelError => decide

/-- C4: the endpoint answers 200 with an empty body iff body reading, payload
decoding, routing, signature validation and the channel hand-off all succeed,
in which case exactly one job is enqueued; on any failure it answers 500 whose
body is the (nonempty) debug rendering of the error and enqueues nothing — in
particular, when no hook target matches, the request is rejected with nothing
sent to the queue. -/
theorem process_request_http (hmac : String → List Nat → List Nat)
    (decode : List Nat → Except String GithubPushEvent) (r : Route)
    (chOk : Bool) (req : Request) :
    ((r.process_request hmac decode chOk req).1 = .ok () ↔
      ∃ body v hook, req.bodyResult = .ok body ∧ decode body = .ok v ∧
        r.hook_for_event v = some hook ∧
        Route.validate_signature hmac hook req body = .ok () ∧ chOk = true) ∧
    ((r.call hmac decode chOk req).1.status = 200 ∧
        (r.call hmac decode chOk req).1.body = "" ↔
      (r.process_request hmac decode chOk req).1 = .ok ()) ∧
    ((r.call hmac decode chOk req).2
      = (r.process_request hmac decode chOk req).2) ∧
    ((r.process_request hmac decode chOk req).1 = .ok () →
      ∃ hook v, (r.process_request hmac decode chOk req).2
        = [.PushEvent ⟨hook, v⟩]) ∧
    (∀ e, (r.process_request hmac decode chOk req).1 = .error e →
      (r.call hmac decode chOk req).1 = ⟨500, routeErrorDebug e⟩ ∧
      routeErrorDebug e ≠ "" ∧
      (r.process_request hmac decode chOk req).2 = []) ∧
    (∀ body v, req.bodyResult = .ok body → decode body = .ok v →
      r.hook_for_event v = none →
      (r.process_request hmac decode chOk req).1
        = .error (.AuthenticationError "No valid hook found") ∧
      (r.process_request hmac decode chOk req).2 = []) := by
  rcases hb : req.bodyResult with eb | body
  · have hpr : r.process_request hmac decode chOk req
        = (.error (.TideError eb), []) := by
      simp [Route.process_request, hb]
    have hc : r.call hmac decode chOk req
        = (⟨500, routeErrorDebug (.TideError eb)⟩, []) := by
      simp [Route.call, hpr, routeErrorDebug]
    refine ⟨by simp [hpr, hb], by simp [hpr, hc], by simp [hpr, hc],
      by simp [hpr], ?_, ?_⟩
    · intro e he
      simp only [hpr] at he
      cases he
      exact ⟨by rw [hc], routeErrorDebug_ne_empty _, by rw [hpr]⟩
    · intro body v hbb
      cases hbb
  · rcases hd : decode body with ed | v
    · have hpr : r.process_request hmac decode chOk req
          = (.error (.DecodingError ed), []) := by
        simp [Route.process_request, hb, hd]
      have hc : r.call hmac decode chOk req
          = (⟨500, routeErrorDebug (.DecodingError ed)⟩, []) := by
        simp [Route.call, hpr, routeErrorDebug]
      refine ⟨by simp [hpr, hb, hd], by simp [hpr, hc], by simp [hpr, hc],
        by simp [hpr], ?_, ?_⟩
      · intro e he
        simp only [hpr] at he
        cases he
        exact ⟨by rw [hc], routeErrorDebug_ne_empty _, by rw [hpr]⟩
      · intro body' v' hbb hd'
        cases hbb
        rw [hd] at hd'
        cases hd'
    · rcases hk : r.hook_for_event v with _ | hook
      · have hpr : r.process_request hmac decode chOk req
            = (.error (.AuthenticationError "No valid hook found"), []) := by
          simp [Route.process_request, hb, hd, hk]
        have hc : r.call hmac decode chOk req
            = (⟨500, routeErrorDebug (.AuthenticationError "No valid hook found")⟩,
               []) := by
          simp [Route.call, hpr, routeErrorDebug]
        refine ⟨by simp [hpr, hb, hd, hk], by simp [hpr, hc], by simp [hpr, hc],
          by simp [hpr], ?_, ?_⟩
        · intro e he
          simp only [hpr] at he
          cases he
          exact ⟨by rw [hc], routeErrorDebug_ne_empty _, by rw [hpr]⟩
        · intro body' v' hbb hd' hk'
          cases hbb
          rw [hd] at hd'
          cases hd'
          exact ⟨by rw [hpr], by rw [hpr]⟩
      · rcases hv : Route.validate_signature hmac hook req body with ev | u
        · have hpr : r.process_request hmac decode chOk req
              = (.error (.AuthenticationError ev), []) := by
            simp [Route.process_request, hb, hd, hk, hv]
          have hc : r.call hmac decode chOk req
              = (⟨500, routeErrorDebug (.AuthenticationError ev)⟩, []) := by
            simp [Route.call, hpr, routeErrorDebug]
          refine ⟨by simp [hpr, hb, hd, hk, hv], by simp [hpr, hc],
            by simp [hpr, hc], by simp [hpr], ?_, ?_⟩
          · intro e he
            simp only [hpr] at he
            cases he
            exact ⟨by rw [hc], routeErrorDebug_ne_empty _, by rw [hpr]⟩
          · intro body' v' hbb hd' hk'
            cases hbb
            rw [hd] at hd'
            cases hd'
            rw [hk] at hk'
            cases hk'
        · cases chOk with
          | false =>
            have hpr : r.process_request hmac decode false req
                = (.error .ChannelError, []) := by
              simp [Route.process_request, hb, hd, hk, hv]
            have hc : r.call hmac decode false req
                = (⟨500, routeErrorDebug .ChannelError⟩, []) := by
              simp [Route.call, hpr, routeErrorDebug]
            refine ⟨by simp [hpr, hb, hd, hk, hv], by simp [hpr, hc],
              by simp [hpr, hc], by simp [hpr], ?_, ?_⟩
            · intro e he
              simp only [hpr] at he
              cases he
              exact ⟨by rw [hc], routeErrorDebug_ne_empty _, by rw [hpr]⟩
            · intro body' v' hbb hd' hk'
              cases hbb
              rw [hd] at hd'
              cases hd'
              rw [hk] at hk'
              cases hk'
          | true =>
            have hpr : r.process_request hmac decode true req
                = (.ok (), [.PushEvent ⟨hook, v⟩]) := by
              simp [Route.process_request, hb, hd, hk, hv]
            have hc : r.call hmac decode true req = (⟨200, ""⟩, [.PushEvent ⟨hook, v⟩]) := by
              simp [Route.call, hpr]
            refine ⟨?_, by simp [hpr, hc], by simp [hpr, hc],
              fun _ => ⟨hook, v, by rw [hpr]⟩, ?_, ?_⟩
            · rw [hpr]
              simp only [true_iff]
              exact ⟨body, v, hook, rfl, hd, hk, hv, trivial⟩
            · intro e he
              simp only [hpr] at he
              cases he
            · intro body' v' hbb hd' hk'
              cases hbb
              rw [hd] at hd'
              cases hd'
              rw [hk] at hk'
              cases hk'

/-- C4 witness: a decodable push matching the configured secretless target is
answered 200 with empty body; a push for an unconfigured branch is rejected
with the routing error and nothing is enqueued. -/
theorem process_request_http_witness :
    ((Route.mk "/hook" [⟨"h", "org/r", "/hook", "/srv", "run.sh", "main", none⟩]).call
        (fun _ _ => []) (fun _ => .ok ⟨"refs/heads/main", ⟨"org/r"⟩⟩)
        true ⟨.ok [1], none⟩).1.status = 200 ∧
    ((Route.mk "/hook" [⟨"h", "org/r", "/hook", "/srv", "run.sh", "main", none⟩]).call
        (fun _ _ => []) (fun _ => .ok ⟨"refs/heads/main", ⟨"org/r"⟩⟩)
        true ⟨.ok [1], none⟩).1.body = "" ∧
    ((Route.mk "/hook" [⟨"h", "org/r", "/hook", "/srv", "run.sh", "main", none⟩]).process_request
        (fun _ _ => []) (fun _ => .ok ⟨"refs/heads/dev", ⟨"org/r"⟩⟩)
        true ⟨.ok [1], none⟩).1
      = .error (.AuthenticationError "No valid hook found") ∧
    ((Route.mk "/hook" [⟨"h", "org/r", "/hook", "/srv", "run.sh", "main", none⟩]).process_request
        (fun _ _ => []) (fun _ => .ok ⟨"refs/heads/dev", ⟨"org/r"⟩⟩)
        true ⟨.ok [1], none⟩).2 = [] := by
  have h1 := process_request_http (fun _ _ => [])
    (fun _ => .ok ⟨"refs/heads/main", ⟨"org/r"⟩⟩)
    (Route.mk "/hook" [⟨"h", "org/r", "/hook", "/srv", "run.sh", "main", none⟩])
    true ⟨.ok [1], none⟩
  have h2 := process_request_http (fun _ _ => [])
    (fun _ => .ok ⟨"refs/heads/dev", ⟨"org/r"⟩⟩)
    (Route.mk "/hook" [⟨"h", "org/r", "/hook", "/srv", "run.sh", "main", none⟩])
    true ⟨.ok [1], none⟩
  have hok := h1.2.1.mpr (h1.1.mpr
    ⟨[1], ⟨"refs/heads/main", ⟨"org/r"⟩⟩,
     ⟨"h", "org/r", "/hook", "/srv", "run.sh", "main", none⟩,
     rfl, rfl, by decide, rfl, rfl⟩)
  have hmiss := h2.2.2.2.2.2 [1] ⟨"refs/heads/dev", ⟨"org/r"⟩⟩ rfl rfl (by decide)
  exact ⟨hok.1, hok.2, hmiss.1, hmiss.2⟩
